import Mathlib

/-!
Shallow embedding of the yosai authentication core:
`yosai/core/authc/authc.py` (token model, `DefaultAuthenticator`) and
`yosai/authc/strategy.py` (the three combination strategies and
`DefaultAuthenticationAttempt`).

Python exceptions are modelled as explicit error values, Python `None`
as `Option.none`, and Python dicts as association lists with
insert-or-replace update (`pyDictSet`).
-/

namespace Yosai

/-- Python exception kinds raised by the modelled code paths. The
`unsupportedTokenKind` constructor stands for the intended
`KeyError('Unsupported Token Type Provided: ', ...)` of
`do_authenticate_account`; no modelled path produces it. -/
inductive PyErrC where
  | valueError (msg : String)
  | typeError (msg : String)
  | assertionError (msg : String)
  | attributeError (msg : String)
  | recursionError (msg : String)
  | keyError (key : String)
  | indexError (msg : String)
  | unsupportedTokenKind (msg : String)
deriving DecidableEq, Repr

/-- Python dict assignment `d[k] = v` on an association list: replace in
place when the key is present, append otherwise (insertion order is
preserved, as for a Python dict). -/
def pyDictSet {α : Type} : List (String × α) → String → α → List (String × α)
  | [], k, v => [(k, v)]
  | p :: ps, k, v => if p.1 = k then (k, v) :: ps else p :: pyDictSet ps k v

/-! ## Token model (`UsernamePasswordToken`, `TOTPToken`, `token_info`) -/

/-- A Python value submitted as a token credential or identifier. -/
inductive PyVal where
  | str (s : String)
  | bytes (b : List Nat)
  | int (n : Int)
  | pynone
deriving DecidableEq, Repr

/-- Python truthiness for the values that reach the identifier setter. -/
def pyFalsy : PyVal → Bool
  | .str s => s = ""
  | .bytes b => b = []
  | .int n => n = 0
  | .pynone => true

/-- `bytes(s, 'utf-8')`: UTF-8 encoding of one code point. -/
def utf8EncodeCodePoint (n : Nat) : List Nat :=
  if n < 128 then [n]
  else if n < 2048 then [192 + n / 64, 128 + n % 64]
  else if n < 65536 then [224 + n / 4096, 128 + (n / 64) % 64, 128 + n % 64]
  else [240 + n / 262144, 128 + (n / 4096) % 64, 128 + (n / 64) % 64, 128 + n % 64]

/-- `bytes(s, 'utf-8')` for a whole string. -/
def utf8Bytes (s : String) : List Nat :=
  s.data.foldr (fun c acc => utf8EncodeCodePoint c.toNat ++ acc) []

/-- The `credentials` setter of `UsernamePasswordToken`
(authc.py lines 78-85).  The first `isinstance(credentials, bytes)`
branch stores the bytes, but it is followed by
`if isinstance(credentials, str): ... else: raise ValueError`, not by an
`elif`; so a `bytes` credential falls into the `else` and the setter
raises after having stored the value, and construction fails. -/
def up_set_credentials (credentials : PyVal) : Except PyErrC PyVal :=
  match credentials with
  | .str s => .ok (.bytes (utf8Bytes s))
  | _ => .error (.valueError "Password must be a str or bytes")

/-- A constructed `UsernamePasswordToken` (identifier and the stored
`_credentials`). -/
structure UPToken where
  identifier : PyVal
  credentials : PyVal
deriving DecidableEq, Repr

/-- `UsernamePasswordToken.__init__` (authc.py lines 43-61): the
`identifier` setter raises `ValueError` on a falsy username, then the
`credentials` setter runs. -/
def usernamePasswordToken_init (username password : PyVal) : Except PyErrC UPToken :=
  if pyFalsy username then .error (.valueError "Username must be defined")
  else
    match up_set_credentials password with
    | .error e => .error e
    | .ok stored => .ok ⟨username, stored⟩

/-- The `credentials` setter of `TOTPToken` (authc.py lines 110-117):
`assert 99999 < credentials < 1000000`, with a comparison against a
non-int raising `TypeError`; either exception is re-raised with the same
class. -/
def totpToken_set_credentials (credentials : PyVal) : Except PyErrC Int :=
  match credentials with
  | .int n =>
      if 99999 < n ∧ n < 1000000 then .ok n
      else .error (.assertionError "TOTPToken must be a 6-digit int")
  | _ => .error (.typeError "TOTPToken must be a 6-digit int")

/-- `TOTPToken.__init__` (authc.py lines 97-104). -/
def totpToken_init (totp_token : PyVal) : Except PyErrC Int :=
  totpToken_set_credentials totp_token

/-- One entry of the process-wide `token_info` registry. -/
structure TokenInfoRec where
  tier : Nat
  cred_type : String
deriving DecidableEq, Repr

/-- The `token_info` registry (authc.py lines 121-122), keyed by the
token class name. -/
def token_info_table : List (String × TokenInfoRec) :=
  [("UsernamePasswordToken", ⟨1, "password"⟩), ("TOTPToken", ⟨2, "totp_key"⟩)]

/-- `authc_token.token_info = token_info[authc_token.__class__]`
(authc.py line 204): a plain dict lookup, raising a bare `KeyError`
for an unregistered token class. -/
def attach_token_info (token_class : String) : Except PyErrC TokenInfoRec :=
  match token_info_table.lookup token_class with
  | some info => .ok info
  | none => .error (.keyError token_class)

/-! ## Realm resolution and dispatch (`DefaultAuthenticator`) -/

/-- A configured realm as seen by the resolver: its name and the token
classes it supports. -/
structure CfgRealm where
  name : String
  supported_authc_tokens : List String
deriving DecidableEq, Repr

/-- `init_token_resolution` builds `defaultdict(list)` mapping each
token class to the realms supporting it, in realm order
(authc.py lines 160-166).  Because the resolver is a `defaultdict`,
looking up an unknown token class returns `[]` and never raises
`KeyError`. -/
def init_token_resolution (realms : List CfgRealm) (token_class : String) : List CfgRealm :=
  realms.filter (fun r => r.supported_authc_tokens.contains token_class)

/-- The dispatch choice made by `do_authenticate_account`. -/
inductive DispatchChoice where
  | single (realm : CfgRealm)
  | multi (realms : List CfgRealm)
deriving DecidableEq, Repr

/-- The realm-selection head of `do_authenticate_account`
(authc.py lines 254-262).  The `except KeyError` branch around the
resolver lookup is unreachable (`defaultdict` lookups never raise), so
with an empty candidate list the code either evaluates `realms[0]`
(an `IndexError`) when exactly one realm is configured globally, or
passes `self.realms` (all realms, not the candidates) to the strategy. -/
def do_authenticate_dispatch (realms : List CfgRealm) (token_class : String) :
    Except PyErrC DispatchChoice :=
  let candidates := init_token_resolution realms token_class
  if realms.length = 1 then
    match candidates with
    | [] => .error (.indexError "list index out of range")
    | r :: _ => .ok (.single r)
  else .ok (.multi realms)

/-! ## Event publication (`notify_event`) -/

/-- `notify_event` (authc.py lines 306-311): `self.event_bus.sendMessage`
publishes `(topic, identifier)`; when the bus is absent the attribute
access raises `AttributeError`, which the handler catches and re-raises
as `AttributeError('Could not publish {topic} event')`. -/
def notify_event (busPresent : Bool) (identifier topic : String) :
    Except PyErrC (String × String) :=
  if busPresent then .ok (topic, identifier)
  else .error (.attributeError ("Could not publish " ++ topic ++ " event"))

/-! ## Locking (`validate_locked`) and the MFA gate -/

/-- The exception validate_locked can raise. -/
inductive VLExc where
  | lockedAccount
  | attributeError
deriving DecidableEq, Repr

/-- Observable result of one `validate_locked` call: the
`lock_account` calls made, the topics published, and the exception
raised (`none` = returned silently). -/
structure VLResult where
  lock_calls : List String
  events : List String
  raised : Option VLExc
deriving DecidableEq, Repr

/-- `validate_locked` (authc.py lines 313-322):
`if self.locking_limit and len(failed_attempts) > self.locking_limit`
then `lock_account(identifier)`, `notify_event(..., ACCOUNT_LOCKED)`
(which raises `AttributeError` when the bus is absent, after the lock
call), then `raise LockedAccountException`.  `locking_limit` is `None`
when locking is disabled, and `0` is falsy. -/
def validate_locked (locking_limit : Option Nat) (busPresent : Bool)
    (identifier : String) (failed_attempts : List Nat) : VLResult :=
  match locking_limit with
  | none => ⟨[], [], none⟩
  | some n =>
    if 0 < n ∧ n < failed_attempts.length then
      if busPresent then
        ⟨[identifier], ["AUTHENTICATION.ACCOUNT_LOCKED"], some VLExc.lockedAccount⟩
      else ⟨[identifier], [], some VLExc.attributeError⟩
    else ⟨[], [], none⟩

/-- An account as consumed by the tail of `do_authenticate_account`:
`account_id` and `authc_info`, a dict from cred_type to a record whose
`failed_attempts` field may be absent (`none`); the `credential` field
is not read on this path. -/
structure YAccount where
  account_id : Nat
  authc_info : List (String × Option (List Nat))
deriving DecidableEq, Repr

/-- The exceptions the tail of `do_authenticate_account` can raise. -/
inductive DAExc where
  | keyError
  | lockedAccount
  | attributeError
  | additionalAuthenticationRequired (account_id : Nat)
deriving DecidableEq, Repr

/-- Terminal outcome of the tail of `do_authenticate_account`. -/
inductive DAOutcome where
  | returns (account : YAccount)
  | raises (e : DAExc)
deriving DecidableEq, Repr

/-- Observable result of the tail of `do_authenticate_account`. -/
structure DAResult where
  lock_calls : List String
  events : List String
  outcome : DAOutcome
deriving DecidableEq, Repr

/-- The tail of `do_authenticate_account` (authc.py lines 264-274), from
the point an account has come back from the realm or strategy:
`attempts = account['authc_info'][cred_type].get('failed_attempts', [])`
(a `KeyError` when the cred_type key is absent), then `validate_locked`,
then the MFA gate: if `len(account['authc_info']) > token_info['tier']`
publish `AUTHENTICATION.PROGRESS` and raise
`AdditionalAuthenticationRequired(account['account_id'])`, else return
the account. -/
def do_authenticate_account_tail (locking_limit : Option Nat) (busPresent : Bool)
    (token : TokenInfoRec) (identifier : String) (account : YAccount) : DAResult :=
  match account.authc_info.lookup token.cred_type with
  | none => ⟨[], [], .raises .keyError⟩
  | some entry =>
    let attempts := entry.getD []
    let vl := validate_locked locking_limit busPresent identifier attempts
    match vl.raised with
    | some VLExc.lockedAccount => ⟨vl.lock_calls, vl.events, .raises .lockedAccount⟩
    | some VLExc.attributeError => ⟨vl.lock_calls, vl.events, .raises .attributeError⟩
    | none =>
      if token.tier < account.authc_info.length then
        if busPresent then
          ⟨vl.lock_calls, vl.events ++ ["AUTHENTICATION.PROGRESS"],
            .raises (.additionalAuthenticationRequired account.account_id)⟩
        else ⟨vl.lock_calls, vl.events, .raises .attributeError⟩
      else ⟨vl.lock_calls, vl.events, .returns account⟩

/-! ## Combination strategies (`yosai/authc/strategy.py`) -/

/-- An exception raised by a realm during a strategy run; `isAuthc`
records `isinstance(exc, AuthenticationException)`. -/
structure RealmExc where
  isAuthc : Bool
  code : Nat
deriving DecidableEq, Repr

/-- What `realm.authenticate_account(token)` does for the attempt token:
return an account (`some`), return `None`, or raise. -/
inductive RealmReply where
  | acct (a : Option Nat)
  | exc (e : RealmExc)
deriving DecidableEq, Repr

/-- A realm as seen by a strategy run on one fixed token: its name,
whether `supports(token)` holds, and what `authenticate_account` does. -/
structure StratRealm where
  name : String
  supports : Bool
  reply : RealmReply
deriving DecidableEq, Repr

/-- A strategy return value: a plain account or a composite account. -/
inductive StratAccount where
  | single (a : Nat)
  | composite (subs : List (String × Nat))
deriving DecidableEq, Repr

/-- Terminal outcome of a strategy `execute` call. -/
inductive StratOutcome where
  | ok (a : Option StratAccount)
  | raised (e : RealmExc)
  | authcWrap (msg : String) (inner : RealmExc)
  | multiRealm (errors : List (String × RealmExc))
  | attrError (msg : String)
deriving DecidableEq, Repr

/-- Modelled from the spec: `DefaultCompositeAccount` is imported from
outside `src/`; spec section 3 says a composite account accumulates
per-realm sub-accounts keyed by realm name, so `append_realm_account`
is a dict assignment keyed by the realm name. -/
def append_realm_account (subs : List (String × Nat)) (realm_name : String) (a : Nat) :
    List (String × Nat) :=
  pyDictSet subs realm_name a

/-- The loop of `AllRealmsSuccessfulStrategy.execute`
(strategy.py lines 40-78), carrying `first_account` (with its realm
name) and `composite_account`.  A raising supported realm short
circuits the whole strategy. -/
def allRealmsGo : List StratRealm → Option (String × Nat) → Option (List (String × Nat)) →
    StratOutcome
  | [], first, comp =>
    match comp with
    | some c => .ok (some (.composite c))
    | none => .ok (first.map (fun p => StratAccount.single p.2))
  | r :: rs, first, comp =>
    if r.supports then
      match r.reply with
      | .exc e => .raised e
      | .acct none => allRealmsGo rs first comp
      | .acct (some a) =>
        match first with
        | none => allRealmsGo rs (some (r.name, a)) comp
        | some (fn, fa) =>
          match comp with
          | none =>
            allRealmsGo rs (some (fn, fa))
              (some (append_realm_account (append_realm_account [] fn fa) r.name a))
          | some c => allRealmsGo rs (some (fn, fa)) (some (append_realm_account c r.name a))
    else allRealmsGo rs first comp

/-- `AllRealmsSuccessfulStrategy.execute` (strategy.py lines 40-78). -/
def allRealmsExecute (realms : List StratRealm) : StratOutcome :=
  allRealmsGo realms none none

/-- The loop state of `AtLeastOneRealmSuccessfulStrategy.execute`
(strategy.py lines 83-120): the loop-local `account` variable (never
reset on a realm exception), the local `realm_errors` dict,
`first_account`, and `composite_account`. -/
structure AlsState where
  account : Option Nat
  realm_errors : List (String × RealmExc)
  first_account : Option Nat
  composite_account : Option (List (String × Nat))
deriving DecidableEq, Repr

/-- Initial state of the `AtLeastOneRealmSuccessfulStrategy` loop. -/
def alsInit : AlsState := ⟨none, [], none, none⟩

/-- One iteration of the `AtLeastOneRealmSuccessfulStrategy` loop
(strategy.py lines 93-109).  On an exception the `account` variable
keeps its previous value, and the `if account is not None` block still
runs, so a stale account can be appended under the raising realm's
name; the first account is only ever kept in `first_account` and is
never appended to the composite. -/
def alsStep (s : AlsState) (r : StratRealm) : AlsState :=
  if r.supports then
    let s1 : AlsState :=
      match r.reply with
      | .exc e => { s with realm_errors := pyDictSet s.realm_errors r.name e }
      | .acct a => { s with account := a }
    match s1.account with
    | none => s1
    | some a =>
      match s1.first_account with
      | none => { s1 with first_account := some a }
      | some _ =>
        { s1 with
          composite_account :=
            some (append_realm_account (s1.composite_account.getD []) r.name a) }
  else s

/-- The whole `AtLeastOneRealmSuccessfulStrategy` loop. -/
def alsLoop (s : AlsState) (realms : List StratRealm) : AlsState :=
  realms.foldl alsStep s

/-- `AtLeastOneRealmSuccessfulStrategy.execute`
(strategy.py lines 83-120).  The terminal `if (self.realm_errors)`
reads an attribute that is never assigned.  Modelled from the spec:
`IAuthenticationStrategy` is imported from outside `src/` and the spec
(sections 4.3 and 9) says strategies are stateless, so the instance has
no `realm_errors` attribute and the access raises `AttributeError` -
both when the local `realm_errors` dict is non-empty and when it is
empty (where the code intends to return `None`). -/
def atLeastOneExecute (realms : List StratRealm) : StratOutcome :=
  let s := alsLoop alsInit realms
  match s.composite_account with
  | some c => .ok (some (.composite c))
  | none =>
    match s.first_account with
    | some f => .ok (some (.single f))
    | none => .attrError "AtLeastOneRealmSuccessfulStrategy object has no attribute realm_errors"

/-- The code after the loop of `FirstRealmSuccessfulStrategy.execute`
(strategy.py lines 166-179): zero errors return `None`; exactly one
error is re-raised when it is an `AuthenticationException` and wrapped
as `AuthenticationException("Unable to authenticate realm account.", exc)`
otherwise; more than one error raises
`MultiRealmAuthenticationException(realm_errors)`. -/
def first_finish (errs : List (String × RealmExc)) : StratOutcome :=
  match errs with
  | [] => .ok none
  | [(_, e)] =>
    if e.isAuthc then .raised e
    else .authcWrap "Unable to authenticate realm account." e
  | _ => .multiRealm errs

/-- The loop of `FirstRealmSuccessfulStrategy.execute`
(strategy.py lines 153-164): per-realm exceptions go into the
`realm_errors` dict; the first supported realm returning a truthy
account is returned immediately. -/
def firstRealmGo : List StratRealm → List (String × RealmExc) → StratOutcome
  | [], errs => first_finish errs
  | r :: rs, errs =>
    if r.supports then
      match r.reply with
      | .exc e => firstRealmGo rs (pyDictSet errs r.name e)
      | .acct none => firstRealmGo rs errs
      | .acct (some a) => .ok (some (.single a))
    else firstRealmGo rs errs

/-- `FirstRealmSuccessfulStrategy.execute` (strategy.py lines 144-179). -/
def firstRealmExecute (realms : List StratRealm) : StratOutcome :=
  firstRealmGo realms []

/-! ## Spec-side descriptions used to state the claims -/

/-- The `(realm name, account)` pairs of the supported realms that
return a non-null account, in iteration order. -/
def supporting_successes : List StratRealm → List (String × Nat)
  | [] => []
  | r :: rs =>
    if r.supports then
      match r.reply with
      | .acct (some a) => (r.name, a) :: supporting_successes rs
      | _ => supporting_successes rs
    else supporting_successes rs

/-- The first supported realm's non-null account, in iteration order. -/
def first_supporting_success : List StratRealm → Option Nat
  | [] => none
  | r :: rs =>
    if r.supports then
      match r.reply with
      | .acct (some a) => some a
      | _ => first_supporting_success rs
    else first_supporting_success rs

/-- The per-realm errors of the supported realms, in iteration order. -/
def collected_errors : List StratRealm → List (String × RealmExc)
  | [] => []
  | r :: rs =>
    if r.supports then
      match r.reply with
      | .exc e => (r.name, e) :: collected_errors rs
      | _ => collected_errors rs
    else collected_errors rs

/-- The sub-accounts of a composite strategy result ( `[]` when the
outcome is not a returned composite account). -/
def subAccountsOf : StratOutcome → List (String × Nat)
  | .ok (some (.composite subs)) => subs
  | _ => []

/-! ## `DefaultAuthenticationAttempt` (strategy.py lines 15-35) -/

/-- The data descriptors defined on `DefaultAuthenticationAttempt`:
`authentication_token` and `realms` are properties and neither defines
a setter. -/
def attemptClassSetters : List (String × Bool) :=
  [("authentication_token", false), ("realms", false)]

/-- Python attribute assignment against a class: assigning through a
property without a setter raises `AttributeError`; assigning a name not
claimed by a property creates a plain instance attribute. -/
def pySetattr (cls : List (String × Bool)) (attr : String) : Except PyErrC Unit :=
  match cls.lookup attr with
  | some true => .ok ()
  | some false => .error (.attributeError "cannot set attribute")
  | none => .ok ()

/-- `DefaultAuthenticationAttempt.__init__` (strategy.py lines 17-25):
assigns `self.authentication_token` and then `self.realms`, both
through setter-less properties. -/
def defaultAuthenticationAttempt_init (authc_token realms : Nat) :
    Except PyErrC (Nat × Nat) :=
  match pySetattr attemptClassSetters "authentication_token" with
  | .error e => .error e
  | .ok _ =>
    match pySetattr attemptClassSetters "realms" with
    | .error e => .error e
    | .ok _ => .ok (authc_token, realms)

/-- The `authentication_token` property getter (strategy.py lines 29-31)
returns `self.authentication_token`, which re-enters the same property:
with any finite recursion budget it exhausts the stack
(`RecursionError`). -/
def attempt_getter_authentication_token : Nat → Except PyErrC Nat
  | 0 => .error (.recursionError "maximum recursion depth exceeded")
  | fuel + 1 => attempt_getter_authentication_token fuel

/-! ## Theorems -/

/-- Claim C10: constructing a `DefaultAuthenticationAttempt` always
raises `AttributeError`, because `__init__` assigns to the setter-less
properties `authentication_token` and `realms`; the self-recursive
getters exhaust any recursion budget, so no attempt value is ever
produced. -/
theorem defaultAuthenticationAttempt_never_constructed :
    (∀ authc_token realms,
      defaultAuthenticationAttempt_init authc_token realms =
        Except.error (PyErrC.attributeError "cannot set attribute"))
    ∧ (∀ fuel,
      attempt_getter_authentication_token fuel =
        Except.error (PyErrC.recursionError "maximum recursion depth exceeded")) := by
  constructor
  · intro t r
    rfl
  · intro fuel
    induction fuel with
    | zero => rfl
    | succ n ih => exact ih

/-- Claim C8, failing input: a `bytes` password is stored by the first
`isinstance` branch but the missing `elif` lets the `else` raise
`ValueError`, so construction fails; a `str` password is stored as its
UTF-8 bytes; a TOTP credential succeeds exactly on ints in
`[100000, 999999]` and fails with `AssertionError` or `TypeError`
otherwise. -/
theorem token_credentials_normalization_eval :
    usernamePasswordToken_init (.str "alice") (.bytes [112, 119]) =
      Except.error (PyErrC.valueError "Password must be a str or bytes")
    ∧ usernamePasswordToken_init (.str "alice") (.str "pw") =
        Except.ok ⟨.str "alice", PyVal.bytes [112, 119]⟩
    ∧ usernamePasswordToken_init (.str "alice") (.int 5) =
        Except.error (PyErrC.valueError "Password must be a str or bytes")
    ∧ totpToken_init (.int 123456) = Except.ok 123456
    ∧ totpToken_init (.int 100000) = Except.ok 100000
    ∧ totpToken_init (.int 999999) = Except.ok 999999
    ∧ totpToken_init (.int 99999) =
        Except.error (PyErrC.assertionError "TOTPToken must be a 6-digit int")
    ∧ totpToken_init (.int 1000000) =
        Except.error (PyErrC.assertionError "TOTPToken must be a 6-digit int")
    ∧ totpToken_init (.str "123456") =
        Except.error (PyErrC.typeError "TOTPToken must be a 6-digit int") := by
  exact ⟨rfl, rfl, rfl, rfl, rfl, rfl, rfl, rfl, rfl⟩

/-- Claim C7: an unregistered token class fails at metadata attachment
with a bare `KeyError`; but an empty candidate list never raises the
intended unsupported-token error, because the resolver is a
`defaultdict`: with one global realm the code raises `IndexError` at
`realms[0]`, and with several realms it proceeds with all realms. -/
theorem token_dispatch_no_unsupported_error :
    attach_token_info "FidoToken" = Except.error (PyErrC.keyError "FidoToken")
    ∧ do_authenticate_dispatch [⟨"realm1", ["UsernamePasswordToken"]⟩] "TOTPToken" =
        Except.error (PyErrC.indexError "list index out of range")
    ∧ do_authenticate_dispatch
        [⟨"realm1", ["UsernamePasswordToken"]⟩, ⟨"realm2", ["UsernamePasswordToken"]⟩]
        "TOTPToken" =
        Except.ok (.multi
          [⟨"realm1", ["UsernamePasswordToken"]⟩, ⟨"realm2", ["UsernamePasswordToken"]⟩])
    ∧ (∀ realms token_class msg,
        do_authenticate_dispatch realms token_class ≠
          Except.error (PyErrC.unsupportedTokenKind msg)) := by
  refine ⟨rfl, rfl, rfl, ?_⟩
  intro realms token_class msg
  unfold do_authenticate_dispatch
  by_cases h : realms.length = 1
  · simp only [h, if_pos rfl]
    cases init_token_resolution realms token_class with
    | nil => simp
    | cons r rs => simp
  · simp [h]

/-- Claim C6, counterexample: with the event bus absent, `notify_event`
is not a silent no-op: it raises `AttributeError` to its caller. -/
theorem notify_event_absent_bus_counterexample :
    notify_event false "alice" "AUTHENTICATION.PROGRESS" =
      Except.error (PyErrC.attributeError
        "Could not publish AUTHENTICATION.PROGRESS event") := rfl

/-- Claim C6 amended: with the event bus absent, `notify_event` raises
`AttributeError` with message `Could not publish {topic} event` for
every identifier and topic. -/
theorem notify_event_absent_bus_raises :
    ∀ identifier topic, notify_event false identifier topic =
      Except.error (PyErrC.attributeError ("Could not publish " ++ topic ++ " event")) :=
  fun _ _ => rfl

/-- Claim C3, failing input: with one supporting realm that raises (and
no success), and likewise with no realms at all, the terminal
`if (self.realm_errors)` reads a never-assigned attribute, so
`AtLeastOneRealmSuccessfulStrategy.execute` raises `AttributeError`
instead of `MultiRealmAuthenticationException` (resp. returning
`None`). -/
theorem atLeastOne_terminal_attribute_error :
    atLeastOneExecute [⟨"r1", true, .exc ⟨true, 5⟩⟩] =
      .attrError "AtLeastOneRealmSuccessfulStrategy object has no attribute realm_errors"
    ∧ atLeastOneExecute [] =
      .attrError "AtLeastOneRealmSuccessfulStrategy object has no attribute realm_errors" :=
  ⟨rfl, rfl⟩

/-- Claim C4, counterexample: with two supporting realms both returning
accounts, `AtLeastOneRealmSuccessfulStrategy.execute` returns a
composite with a single sub-account that omits the first realm's
account, because the first account is only kept in `first_account` and
never appended. -/
theorem atLeastOne_composite_counterexample :
    atLeastOneExecute [⟨"r1", true, .acct (some 10)⟩, ⟨"r2", true, .acct (some 20)⟩] =
      .ok (some (.composite [("r2", 20)]))
    ∧ ("r1", 10) ∉ subAccountsOf
        (atLeastOneExecute [⟨"r1", true, .acct (some 10)⟩, ⟨"r2", true, .acct (some 20)⟩])
    ∧ (subAccountsOf
        (atLeastOneExecute
          [⟨"r1", true, .acct (some 10)⟩, ⟨"r2", true, .acct (some 20)⟩])).length = 1 := by
  refine ⟨rfl, ?_, rfl⟩
  decide

/-- Claim C9, counterexample: realm r1 succeeds, realm r2 then returns
`None` (resetting the loop-local `account`), and realm r3 raises: no
account is appended under r3's name, the composite is never created,
and the call returns r1's plain account - so the claim's universally
quantified statement fails. -/
theorem atLeastOne_stale_append_counterexample :
    atLeastOneExecute
      [⟨"r1", true, .acct (some 7)⟩, ⟨"r2", true, .acct none⟩,
        ⟨"r3", true, .exc ⟨false, 0⟩⟩] = .ok (some (.single 7))
    ∧ ("r3", 7) ∉ subAccountsOf
        (atLeastOneExecute
          [⟨"r1", true, .acct (some 7)⟩, ⟨"r2", true, .acct none⟩,
            ⟨"r3", true, .exc ⟨false, 0⟩⟩])
    ∧ (alsLoop alsInit
        [⟨"r1", true, .acct (some 7)⟩, ⟨"r2", true, .acct none⟩,
          ⟨"r3", true, .exc ⟨false, 0⟩⟩]).composite_account = none := by
  refine ⟨rfl, ?_, rfl⟩
  decide

/-- Claim C5, counterexample: the single non-authentication error is
wrapped with message `Unable to authenticate realm account.` (with a
trailing period), not the claim's quoted
`Unable to authenticate realm account`. -/
theorem firstRealm_wrap_message_counterexample :
    firstRealmExecute [⟨"r1", true, .exc ⟨false, 0⟩⟩] =
      .authcWrap "Unable to authenticate realm account." ⟨false, 0⟩
    ∧ "Unable to authenticate realm account." ≠ "Unable to authenticate realm account" := by
  refine ⟨rfl, ?_⟩
  decide

/-- Unfolding equation for `validate_locked` with a configured
threshold and a present bus. -/
theorem validate_locked_some_true (n : Nat) (identifier : String)
    (failed_attempts : List Nat) :
    validate_locked (some n) true identifier failed_attempts =
      if 0 < n ∧ n < failed_attempts.length then
        ⟨[identifier], ["AUTHENTICATION.ACCOUNT_LOCKED"], some VLExc.lockedAccount⟩
      else ⟨[], [], none⟩ := rfl

/-- Unfolding equation for `validate_locked` with an absent bus. -/
theorem validate_locked_some_false (n : Nat) (identifier : String)
    (failed_attempts : List Nat) :
    validate_locked (some n) false identifier failed_attempts =
      if 0 < n ∧ n < failed_attempts.length then
        ⟨[identifier], [], some VLExc.attributeError⟩
      else ⟨[], [], none⟩ := rfl

/-- A `validate_locked` call that returns silently made no lock call
and published nothing. -/
theorem validate_locked_silent (locking_limit : Option Nat) (busPresent : Bool)
    (identifier : String) (failed_attempts : List Nat)
    (h : (validate_locked locking_limit busPresent identifier failed_attempts).raised = none) :
    validate_locked locking_limit busPresent identifier failed_attempts = ⟨[], [], none⟩ := by
  cases locking_limit with
  | none => rfl
  | some n =>
    by_cases hc : 0 < n ∧ n < failed_attempts.length
    · cases busPresent
      · rw [validate_locked_some_false, if_pos hc] at h
        simp at h
      · rw [validate_locked_some_true, if_pos hc] at h
        simp at h
    · cases busPresent
      · rw [validate_locked_some_false, if_neg hc]
      · rw [validate_locked_some_true, if_neg hc]

/-- Claim C2: with locking enabled (a positive threshold) and the event
bus present, `validate_locked` locks the token's identifier exactly
once, publishes `AUTHENTICATION.ACCOUNT_LOCKED` and raises
`LockedAccountException` if and only if the failed-attempt count
strictly exceeds the threshold; at or below the threshold, and likewise
with locking disabled, it returns silently with no lock call. -/
theorem validate_locked_spec (n : Nat) (identifier : String) (failed_attempts : List Nat)
    (hn : 0 < n) :
    ((validate_locked (some n) true identifier failed_attempts =
        ⟨[identifier], ["AUTHENTICATION.ACCOUNT_LOCKED"], some VLExc.lockedAccount⟩)
      ↔ n < failed_attempts.length)
    ∧ (failed_attempts.length ≤ n →
        validate_locked (some n) true identifier failed_attempts = ⟨[], [], none⟩)
    ∧ (∀ busPresent,
        validate_locked none busPresent identifier failed_attempts = ⟨[], [], none⟩) := by
  refine ⟨?_, ?_, fun _ => rfl⟩
  · rw [validate_locked_some_true]
    by_cases hlen : n < failed_attempts.length
    · rw [if_pos (show 0 < n ∧ n < failed_attempts.length from ⟨hn, hlen⟩)]
      simp [hlen]
    · rw [if_neg (show ¬(0 < n ∧ n < failed_attempts.length) from fun hc => hlen hc.2)]
      simp only [hlen, iff_false]
      intro hcontra
      have hfields : ([] : List String) = [identifier] :=
        congrArg VLResult.lock_calls hcontra
      simp at hfields
  · intro hle
    rw [validate_locked_some_true,
      if_neg (show ¬(0 < n ∧ n < failed_attempts.length) from
        fun hc => absurd hc.2 (Nat.not_lt.mpr hle))]

/-- Witness for `validate_locked_spec`: threshold 3, four failed
attempts, identifier `alice`. -/
theorem validate_locked_spec_witness :
    0 < 3
    ∧ validate_locked (some 3) true "alice" [1, 2, 3, 4] =
        ⟨["alice"], ["AUTHENTICATION.ACCOUNT_LOCKED"], some VLExc.lockedAccount⟩
    ∧ validate_locked (some 3) true "alice" [1, 2] = ⟨[], [], none⟩ :=
  ⟨by decide,
    (validate_locked_spec 3 "alice" [1, 2, 3, 4] (by decide)).1.mpr (by decide),
    (validate_locked_spec 3 "alice" [1, 2] (by decide)).2.1 (by decide)⟩

/-- Claim C1: once an account has come back from the realm or strategy,
given the token's cred_type is present in the account's `authc_info`,
the event bus is present and `validate_locked` returns silently, the
tail of `do_authenticate_account` publishes `AUTHENTICATION.PROGRESS`
and raises `AdditionalAuthenticationRequired` carrying
`account.account_id` if and only if `len(account.authc_info)` strictly
exceeds `token.token_info.tier`; otherwise it returns the account with
no event published. -/
theorem do_authenticate_mfa_gate (locking_limit : Option Nat) (token : TokenInfoRec)
    (identifier : String) (account : YAccount) (entry : Option (List Nat))
    (hlook : account.authc_info.lookup token.cred_type = some entry)
    (hnolock :
      (validate_locked locking_limit true identifier (entry.getD [])).raised = none) :
    ((do_authenticate_account_tail locking_limit true token identifier account =
        ⟨[], ["AUTHENTICATION.PROGRESS"],
          .raises (.additionalAuthenticationRequired account.account_id)⟩)
      ↔ token.tier < account.authc_info.length)
    ∧ (account.authc_info.length ≤ token.tier →
        do_authenticate_account_tail locking_limit true token identifier account =
          ⟨[], [], .returns account⟩) := by
  have hvl := validate_locked_silent locking_limit true identifier (entry.getD []) hnolock
  have key : do_authenticate_account_tail locking_limit true token identifier account =
      if token.tier < account.authc_info.length then
        ⟨[], ["AUTHENTICATION.PROGRESS"],
          .raises (.additionalAuthenticationRequired account.account_id)⟩
      else ⟨[], [], .returns account⟩ := by
    unfold do_authenticate_account_tail
    rw [hlook]
    simp only [hvl, if_true, List.nil_append]
  rw [key]
  constructor
  · by_cases hlen : token.tier < account.authc_info.length
    · rw [if_pos hlen]
      simp [hlen]
    · rw [if_neg hlen]
      simp only [hlen, iff_false]
      intro hcontra
      have hfields : DAOutcome.returns account =
          DAOutcome.raises (.additionalAuthenticationRequired account.account_id) :=
        congrArg DAResult.outcome hcontra
      simp at hfields
  · intro hle
    rw [if_neg (Nat.not_lt.mpr hle)]

/-- Witness for `do_authenticate_mfa_gate`: a two-factor account
(`password` and `totp_key` entries) dispatched with a tier-1 password
token raises `AdditionalAuthenticationRequired(42)` after publishing
`AUTHENTICATION.PROGRESS`; the same account with a tier-2 TOTP token is
returned. -/
theorem do_authenticate_mfa_gate_witness :
    (YAccount.mk 42 [("password", some []), ("totp_key", some [])]).authc_info.lookup
        "password" = some (some [])
    ∧ (validate_locked none true "alice" ((some []).getD [])).raised = none
    ∧ do_authenticate_account_tail none true ⟨1, "password"⟩ "alice"
        ⟨42, [("password", some []), ("totp_key", some [])]⟩ =
        ⟨[], ["AUTHENTICATION.PROGRESS"], .raises (.additionalAuthenticationRequired 42)⟩
    ∧ do_authenticate_account_tail none true ⟨2, "totp_key"⟩ "alice"
        ⟨42, [("password", some []), ("totp_key", some [])]⟩ =
        ⟨[], [], .returns ⟨42, [("password", some []), ("totp_key", some [])]⟩⟩ :=
  ⟨by decide, rfl,
    (do_authenticate_mfa_gate none ⟨1, "password"⟩ "alice"
      ⟨42, [("password", some []), ("totp_key", some [])]⟩ (some []) (by decide) rfl).1.mpr
      (by decide),
    (do_authenticate_mfa_gate none ⟨2, "totp_key"⟩ "alice"
      ⟨42, [("password", some []), ("totp_key", some [])]⟩ (some []) (by decide) rfl).2
      (by decide)⟩

/-- A dict assignment with a fresh key is a plain append. -/
theorem pyDictSet_fresh {α : Type} (d : List (String × α)) (k : String) (v : α)
    (h : k ∉ d.map Prod.fst) : pyDictSet d k v = d ++ [(k, v)] := by
  induction d with
  | nil => rfl
  | cons p ps ih =>
    simp only [List.map_cons, List.mem_cons, not_or] at h
    unfold pyDictSet
    rw [if_neg (fun he => h.1 he.symm), ih h.2]
    rfl

/-- A dict assignment under a different key preserves membership. -/
theorem mem_pyDictSet_of_ne {α : Type} {d : List (String × α)} {k : String} {v : α}
    {n : String} {a : α} (hmem : (n, a) ∈ d) (hne : n ≠ k) : (n, a) ∈ pyDictSet d k v := by
  induction d with
  | nil => cases hmem
  | cons p ps ih =>
    unfold pyDictSet
    by_cases hp : p.1 = k
    · rw [if_pos hp]
      rcases List.mem_cons.mp hmem with heq | hm
      · exact absurd (by rw [← heq] at hp; exact hp) hne
      · exact List.mem_cons_of_mem _ hm
    · rw [if_neg hp]
      rcases List.mem_cons.mp hmem with heq | hm
      · exact heq ▸ List.mem_cons_self _ _
      · exact List.mem_cons_of_mem _ (ih hm)

/-- Keys after a dict assignment: the new key or an old key. -/
theorem mem_keys_pyDictSet {α : Type} {d : List (String × α)} {k : String} {v : α}
    {x : String} (hx : x ∈ (pyDictSet d k v).map Prod.fst) :
    x = k ∨ x ∈ d.map Prod.fst := by
  induction d with
  | nil =>
    simp only [pyDictSet, List.map_cons, List.map_nil, List.mem_singleton] at hx
    exact Or.inl hx
  | cons p ps ih =>
    unfold pyDictSet at hx
    by_cases hp : p.1 = k
    · rw [if_pos hp] at hx
      simp only [List.map_cons, List.mem_cons] at hx
      rcases hx with h1 | h2
      · exact Or.inl h1
      · exact Or.inr (by simp only [List.map_cons, List.mem_cons]; exact Or.inr h2)
    · rw [if_neg hp] at hx
      simp only [List.map_cons, List.mem_cons] at hx
      rcases hx with h1 | h2
      · exact Or.inr (by simp only [List.map_cons, List.mem_cons]; exact Or.inl h1)
      · rcases ih h2 with h3 | h4
        · exact Or.inl h3
        · exact Or.inr (by simp only [List.map_cons, List.mem_cons]; exact Or.inr h4)

/-- The names of the supported succeeding realms form a sublist of all
realm names. -/
theorem supporting_successes_keys_sublist (realms : List StratRealm) :
    List.Sublist ((supporting_successes realms).map Prod.fst)
      (realms.map StratRealm.name) := by
  induction realms with
  | nil => simp [supporting_successes]
  | cons r rs ih =>
    obtain ⟨rn, rsup, rrep⟩ := r
    cases rsup
    · simpa [supporting_successes] using ih.cons rn
    · cases rrep with
      | exc e => simpa [supporting_successes] using ih.cons rn
      | acct a =>
        cases a with
        | none => simpa [supporting_successes] using ih.cons rn
        | some av => simpa [supporting_successes] using ih.cons₂ rn

/-- If `AllRealmsSuccessfulStrategy` returns, no supported realm
raised. -/
theorem allGo_ok_no_exc (realms : List StratRealm) :
    ∀ first comp x, allRealmsGo realms first comp = .ok x →
      ∀ r ∈ realms, r.supports = true → ∀ e, r.reply ≠ RealmReply.exc e := by
  induction realms with
  | nil => intro first comp x _ r hr; cases hr
  | cons q qs ih =>
    intro first comp x hok r hr hsup e hrep
    obtain ⟨qn, qsup, qrep⟩ := q
    rcases List.mem_cons.mp hr with heq | hm
    · subst heq
      have hqsup : qsup = true := hsup
      subst hqsup
      have hqrep : qrep = RealmReply.exc e := hrep
      rw [hqrep] at hok
      simp [allRealmsGo] at hok
    · cases qsup
      · exact ih first comp x (by simpa [allRealmsGo] using hok) r hm hsup e hrep
      · cases qrep with
        | exc e2 => simp [allRealmsGo] at hok
        | acct a =>
          cases a with
          | none => exact ih first comp x (by simpa [allRealmsGo] using hok) r hm hsup e hrep
          | some av =>
            cases first with
            | none => exact ih _ comp x (by simpa [allRealmsGo] using hok) r hm hsup e hrep
            | some p =>
              obtain ⟨fn, fa⟩ := p
              cases comp with
              | none => exact ih _ _ x (by simpa [allRealmsGo] using hok) r hm hsup e hrep
              | some c => exact ih _ _ x (by simpa [allRealmsGo] using hok) r hm hsup e hrep

/-- `append_realm_account` with a fresh realm name is a plain append. -/
theorem append_realm_account_fresh (c : List (String × Nat)) (k : String) (v : Nat)
    (h : k ∉ c.map Prod.fst) : append_realm_account c k v = c ++ [(k, v)] :=
  pyDictSet_fresh c k v h

/-- `AllRealmsSuccessfulStrategy` loop with a composite already built:
every further supported success is appended, and the composite is
returned. -/
theorem allGo_comp_char (fn : String) (fa : Nat) (realms : List StratRealm) :
    ∀ c : List (String × Nat),
      (∀ r ∈ realms, r.supports = true → ∀ e, r.reply ≠ RealmReply.exc e) →
      (c.map Prod.fst ++ realms.map StratRealm.name).Nodup →
      allRealmsGo realms (some (fn, fa)) (some c) =
        .ok (some (.composite (c ++ supporting_successes realms))) := by
  induction realms with
  | nil => intro c _ _; simp [allRealmsGo, supporting_successes]
  | cons r rs ih =>
    intro c hnoexc hnd
    obtain ⟨rn, rsup, rrep⟩ := r
    have hnoexc' : ∀ r ∈ rs, r.supports = true → ∀ e, r.reply ≠ RealmReply.exc e :=
      fun r hr => hnoexc r (List.mem_cons_of_mem _ hr)
    have hnd' : (c.map Prod.fst ++ rs.map StratRealm.name).Nodup :=
      hnd.sublist ((List.sublist_cons_self rn (rs.map StratRealm.name)).append_left _)
    cases rsup with
    | false =>
      simpa [allRealmsGo, supporting_successes] using ih c hnoexc' hnd'
    | true =>
      cases rrep with
      | exc e =>
        exact absurd rfl (hnoexc ⟨rn, true, .exc e⟩ (List.mem_cons_self _ _) rfl e)
      | acct a =>
        cases a with
        | none => simpa [allRealmsGo, supporting_successes] using ih c hnoexc' hnd'
        | some av =>
          have hfresh : rn ∉ c.map Prod.fst := fun hmem =>
            (List.disjoint_of_nodup_append hnd) hmem (List.mem_cons_self rn _)
          have happend := append_realm_account_fresh c rn av hfresh
          have hnd2 : ((c ++ [(rn, av)]).map Prod.fst ++ rs.map StratRealm.name).Nodup := by
            have hrw : (c ++ [(rn, av)]).map Prod.fst ++ rs.map StratRealm.name =
                c.map Prod.fst ++ rn :: rs.map StratRealm.name := by
              simp
            rw [hrw]; exact hnd
          have := ih (c ++ [(rn, av)]) hnoexc' hnd2
          simp only [allRealmsGo, supporting_successes]
          rw [happend, this]
          simp

/-- `AllRealmsSuccessfulStrategy` loop with only a first account held:
with no further success the first account is returned plain; otherwise a
composite is built from the first account onward. -/
theorem allGo_first_char (fn : String) (fa : Nat) (realms : List StratRealm) :
    (∀ r ∈ realms, r.supports = true → ∀ e, r.reply ≠ RealmReply.exc e) →
    (fn :: realms.map StratRealm.name).Nodup →
    allRealmsGo realms (some (fn, fa)) none =
      match supporting_successes realms with
      | [] => .ok (some (.single fa))
      | ss => .ok (some (.composite ((fn, fa) :: ss))) := by
  induction realms with
  | nil => intro _ _; simp [allRealmsGo, supporting_successes]
  | cons r rs ih =>
    intro hnoexc hnd
    obtain ⟨rn, rsup, rrep⟩ := r
    have hnoexc' : ∀ r ∈ rs, r.supports = true → ∀ e, r.reply ≠ RealmReply.exc e :=
      fun r hr => hnoexc r (List.mem_cons_of_mem _ hr)
    have hnd' : (fn :: rs.map StratRealm.name).Nodup :=
      hnd.sublist ((List.sublist_cons_self rn (rs.map StratRealm.name)).cons₂ fn)
    cases rsup with
    | false =>
      simpa [allRealmsGo, supporting_successes] using ih hnoexc' hnd'
    | true =>
      cases rrep with
      | exc e =>
        exact absurd rfl (hnoexc ⟨rn, true, .exc e⟩ (List.mem_cons_self _ _) rfl e)
      | acct a =>
        cases a with
        | none => simpa [allRealmsGo, supporting_successes] using ih hnoexc' hnd'
        | some av =>
          have hne : rn ∉ ([(fn, fa)] : List (String × Nat)).map Prod.fst := by
            simp only [List.map_cons, List.map_nil, List.mem_singleton]
            intro hrn
            exact (List.nodup_cons.mp hnd).1 (hrn ▸ List.mem_cons_self rn _)
          have happend := append_realm_account_fresh [(fn, fa)] rn av hne
          have hnd2 : (((fn, fa) :: [(rn, av)]).map Prod.fst ++
              rs.map StratRealm.name).Nodup := by
            simpa using hnd
          have hcomp := allGo_comp_char fn fa rs ((fn, fa) :: [(rn, av)]) hnoexc' hnd2
          simp only [allRealmsGo, supporting_successes, if_true]
          have hbase : append_realm_account [] fn fa = [(fn, fa)] := rfl
          rw [hbase, happend]
          simp only [List.singleton_append]
          rw [hcomp]
          rfl

/-- Characterization of `AllRealmsSuccessfulStrategy.execute` when no
supported realm raises and realm names are distinct: the outcome is
`None`, the sole success, or the composite of all successes. -/
theorem allExecute_char (realms : List StratRealm) :
    (∀ r ∈ realms, r.supports = true → ∀ e, r.reply ≠ RealmReply.exc e) →
    (realms.map StratRealm.name).Nodup →
    allRealmsExecute realms =
      match supporting_successes realms with
      | [] => .ok none
      | [p] => .ok (some (.single p.2))
      | ps => .ok (some (.composite ps)) := by
  induction realms with
  | nil => intro _ _; simp [allRealmsExecute, allRealmsGo, supporting_successes]
  | cons r rs ih =>
    intro hnoexc hnd
    obtain ⟨rn, rsup, rrep⟩ := r
    have hnoexc' : ∀ r ∈ rs, r.supports = true → ∀ e, r.reply ≠ RealmReply.exc e :=
      fun r hr => hnoexc r (List.mem_cons_of_mem _ hr)
    have hnd' : (rs.map StratRealm.name).Nodup := by
      simpa using (List.nodup_cons.mp (by simpa using hnd)).2
    cases rsup with
    | false =>
      simpa [allRealmsExecute, allRealmsGo, supporting_successes] using ih hnoexc' hnd'
    | true =>
      cases rrep with
      | exc e =>
        exact absurd rfl (hnoexc ⟨rn, true, .exc e⟩ (List.mem_cons_self _ _) rfl e)
      | acct a =>
        cases a with
        | none =>
          simpa [allRealmsExecute, allRealmsGo, supporting_successes] using ih hnoexc' hnd'
        | some av =>
          have hfirst := allGo_first_char rn av rs hnoexc' (by simpa using hnd)
          simp only [allRealmsExecute, allRealmsGo, supporting_successes]
          rw [hfirst]
          cases hss : supporting_successes rs with
          | nil => rfl
          | cons q qs => rfl

/-- Claim C4 amended (restricted to `AllRealmsSuccessfulStrategy`):
with pairwise distinct realm names, whenever the strategy returns an
account and at least two supported realms succeeded, the returned value
is a composite whose sub-accounts number at least two, include the
first succeeding realm's account, and carry pairwise distinct realm
names. -/
theorem allRealms_composite_invariant (realms : List StratRealm) (out : StratAccount)
    (hnd : (realms.map StratRealm.name).Nodup)
    (hok : allRealmsExecute realms = .ok (some out))
    (hlen : 2 ≤ (supporting_successes realms).length) :
    ∃ subs, out = .composite subs ∧ 2 ≤ subs.length
      ∧ (∃ p, (supporting_successes realms).head? = some p ∧ p ∈ subs)
      ∧ (subs.map Prod.fst).Nodup := by
  have hnoexc : ∀ r ∈ realms, r.supports = true → ∀ e, r.reply ≠ RealmReply.exc e :=
    allGo_ok_no_exc realms none none (some out) hok
  have hchar := allExecute_char realms hnoexc hnd
  rw [hok] at hchar
  have hkeys : ((supporting_successes realms).map Prod.fst).Nodup :=
    hnd.sublist (supporting_successes_keys_sublist realms)
  cases hss : supporting_successes realms with
  | nil => rw [hss] at hlen; simp at hlen
  | cons p1 tl =>
    cases tl with
    | nil => rw [hss] at hlen; simp at hlen
    | cons p2 rest =>
      rw [hss] at hchar
      have hchar2 : StratOutcome.ok (some out) =
          StratOutcome.ok (some (StratAccount.composite (p1 :: p2 :: rest))) := hchar
      have hout : out = .composite (p1 :: p2 :: rest) :=
        Option.some.inj (StratOutcome.ok.inj hchar2)
      refine ⟨p1 :: p2 :: rest, hout, by simp, ⟨p1, rfl, List.mem_cons_self _ _⟩, ?_⟩
      rw [hss] at hkeys
      exact hkeys

/-- Witness for `allRealms_composite_invariant`: two supporting realms
each returning an account. -/
theorem allRealms_composite_invariant_witness :
    (([⟨"r1", true, .acct (some 1)⟩, ⟨"r2", true, .acct (some 2)⟩] :
        List StratRealm).map StratRealm.name).Nodup
    ∧ allRealmsExecute [⟨"r1", true, .acct (some 1)⟩, ⟨"r2", true, .acct (some 2)⟩] =
        .ok (some (.composite [("r1", 1), ("r2", 2)]))
    ∧ 2 ≤ (supporting_successes
        [⟨"r1", true, .acct (some 1)⟩, ⟨"r2", true, .acct (some 2)⟩]).length
    ∧ (∃ subs, (StratAccount.composite [("r1", 1), ("r2", 2)]) = .composite subs
        ∧ 2 ≤ subs.length
        ∧ (∃ p, (supporting_successes
            [⟨"r1", true, .acct (some 1)⟩, ⟨"r2", true, .acct (some 2)⟩]).head? = some p
          ∧ p ∈ subs)
        ∧ (subs.map Prod.fst).Nodup) :=
  ⟨by decide, rfl, by decide,
    allRealms_composite_invariant
      [⟨"r1", true, .acct (some 1)⟩, ⟨"r2", true, .acct (some 2)⟩]
      (.composite [("r1", 1), ("r2", 2)]) (by decide) rfl (by decide)⟩

/-- `FirstRealmSuccessfulStrategy` loop characterization, generalized
over already-collected errors with fresh keys. -/
theorem firstGo_char (realms : List StratRealm) :
    ∀ errs : List (String × RealmExc),
      (errs.map Prod.fst ++ realms.map StratRealm.name).Nodup →
      firstRealmGo realms errs =
        match first_supporting_success realms with
        | some a => .ok (some (.single a))
        | none => first_finish (errs ++ collected_errors realms) := by
  induction realms with
  | nil =>
    intro errs _
    simp [firstRealmGo, first_supporting_success, collected_errors]
  | cons r rs ih =>
    intro errs hnd
    obtain ⟨rn, rsup, rrep⟩ := r
    have hnd' : (errs.map Prod.fst ++ rs.map StratRealm.name).Nodup :=
      hnd.sublist ((List.sublist_cons_self rn (rs.map StratRealm.name)).append_left _)
    cases rsup with
    | false =>
      simpa [firstRealmGo, first_supporting_success, collected_errors] using ih errs hnd'
    | true =>
      cases rrep with
      | acct a =>
        cases a with
        | none =>
          simpa [firstRealmGo, first_supporting_success, collected_errors] using
            ih errs hnd'
        | some av =>
          simp [firstRealmGo, first_supporting_success]
      | exc e =>
        have hfresh : rn ∉ errs.map Prod.fst := fun hmem =>
          (List.disjoint_of_nodup_append hnd) hmem (List.mem_cons_self rn _)
        have happend := pyDictSet_fresh errs rn e hfresh
        have hnd2 : ((errs ++ [(rn, e)]).map Prod.fst ++ rs.map StratRealm.name).Nodup := by
          have hrw : (errs ++ [(rn, e)]).map Prod.fst ++ rs.map StratRealm.name =
              errs.map Prod.fst ++ rn :: rs.map StratRealm.name := by
            simp
          rw [hrw]; exact hnd
        have := ih (errs ++ [(rn, e)]) hnd2
        simp only [firstRealmGo, first_supporting_success, collected_errors, if_true]
        rw [happend, this]
        cases hss : first_supporting_success rs with
        | some a => rfl
        | none => simp [List.append_assoc]

/-- The `FirstRealmSuccessful` loop returns the first supported
non-null account immediately, whatever errors were collected before and
whatever realms come after. -/
theorem firstGo_shortcircuit (pre : List StratRealm) (r : StratRealm)
    (post : List StratRealm) (a : Nat) :
    ∀ errs, r.supports = true → r.reply = RealmReply.acct (some a) →
      first_supporting_success pre = none →
      firstRealmGo (pre ++ r :: post) errs = .ok (some (.single a)) := by
  induction pre with
  | nil =>
    intro errs hsup hrep _
    obtain ⟨rn, rsup, rrep⟩ := r
    have h1 : rsup = true := hsup
    have h2 : rrep = RealmReply.acct (some a) := hrep
    subst h1; subst h2
    simp [firstRealmGo]
  | cons q qs ih =>
    intro errs hsup hrep hfss
    obtain ⟨qn, qsup, qrep⟩ := q
    cases qsup with
    | false =>
      have hfss' : first_supporting_success qs = none := by
        simpa [first_supporting_success] using hfss
      simpa [firstRealmGo] using ih errs hsup hrep hfss'
    | true =>
      cases qrep with
      | exc e =>
        have hfss' : first_supporting_success qs = none := by
          simpa [first_supporting_success] using hfss
        simpa [firstRealmGo] using ih (pyDictSet errs qn e) hsup hrep hfss'
      | acct b =>
        cases b with
        | none =>
          have hfss' : first_supporting_success qs = none := by
            simpa [first_supporting_success] using hfss
          simpa [firstRealmGo] using ih errs hsup hrep hfss'
        | some bv =>
          exfalso
          simp [first_supporting_success] at hfss

/-- Claim C5 amended (wrap message carries a trailing period): with
distinct realm names, `FirstRealmSuccessfulStrategy.execute` returns
the first supported realm's non-null account - without consulting
later realms - and, when the loop exhausts with no success, returns
`None` with no errors, re-raises a sole authentication-kind error or
wraps a sole other error as
`AuthenticationException("Unable to authenticate realm account.", inner)`,
and raises `MultiRealmAuthenticationException` with the per-realm error
map when several realms raised. -/
theorem firstRealm_successful_spec :
    (∀ realms : List StratRealm, (realms.map StratRealm.name).Nodup →
      firstRealmExecute realms =
        match first_supporting_success realms with
        | some a => .ok (some (.single a))
        | none => first_finish (collected_errors realms))
    ∧ (∀ (pre : List StratRealm) (r : StratRealm) (post : List StratRealm) (a : Nat),
        r.supports = true → r.reply = RealmReply.acct (some a) →
        first_supporting_success pre = none →
        firstRealmExecute (pre ++ r :: post) = .ok (some (.single a))) := by
  constructor
  · intro realms hnd
    have h := firstGo_char realms [] (by simpa using hnd)
    simpa [firstRealmExecute] using h
  · intro pre r post a hsup hrep hfss
    exact firstGo_shortcircuit pre r post a [] hsup hrep hfss

/-- Witness for `firstRealm_successful_spec`: a raising realm followed
by a succeeding one returns the success; a success is returned
regardless of later realms; two raising realms yield the bundled
per-realm error map. -/
theorem firstRealm_successful_spec_witness :
    firstRealmExecute [⟨"rA", true, .exc ⟨true, 1⟩⟩, ⟨"rB", true, .acct (some 9)⟩] =
      .ok (some (.single 9))
    ∧ firstRealmExecute
        ([⟨"rA", true, .acct none⟩] ++ ⟨"rB", true, .acct (some 5)⟩ ::
          [⟨"rC", true, .exc ⟨false, 2⟩⟩]) = .ok (some (.single 5))
    ∧ firstRealmExecute [⟨"rA", true, .exc ⟨true, 1⟩⟩, ⟨"rB", true, .exc ⟨false, 2⟩⟩] =
        .multiRealm [("rA", ⟨true, 1⟩), ("rB", ⟨false, 2⟩)] :=
  ⟨(firstRealm_successful_spec.1
      [⟨"rA", true, .exc ⟨true, 1⟩⟩, ⟨"rB", true, .acct (some 9)⟩] (by decide)).trans rfl,
    firstRealm_successful_spec.2 [⟨"rA", true, .acct none⟩] ⟨"rB", true, .acct (some 5)⟩
      [⟨"rC", true, .exc ⟨false, 2⟩⟩] 5 rfl rfl rfl,
    (firstRealm_successful_spec.1
      [⟨"rA", true, .exc ⟨true, 1⟩⟩, ⟨"rB", true, .exc ⟨false, 2⟩⟩] (by decide)).trans rfl⟩

/-- The `AtLeastOne` loop over an appended list runs the two parts in
sequence. -/
theorem alsLoop_append (s : AlsState) (l1 l2 : List StratRealm) :
    alsLoop s (l1 ++ l2) = alsLoop (alsLoop s l1) l2 := by
  unfold alsLoop
  exact List.foldl_append alsStep s l1 l2

/-- One `AtLeastOne` step either leaves the composite untouched or
dict-assigns one account under the current realm's name. -/
theorem alsStep_comp_cases (s : AlsState) (r : StratRealm) :
    (alsStep s r).composite_account = s.composite_account ∨
    ∃ a, (alsStep s r).composite_account =
      some (append_realm_account (s.composite_account.getD []) r.name a) := by
  obtain ⟨sa, se, sf, sc⟩ := s
  obtain ⟨rn, rsup, rrep⟩ := r
  cases rsup with
  | false => exact Or.inl rfl
  | true =>
    cases rrep with
    | exc e =>
      cases sa with
      | none => exact Or.inl rfl
      | some a =>
        cases sf with
        | none => exact Or.inl rfl
        | some f => exact Or.inr ⟨a, rfl⟩
    | acct a0 =>
      cases a0 with
      | none => exact Or.inl rfl
      | some a =>
        cases sf with
        | none => exact Or.inl rfl
        | some f => exact Or.inr ⟨a, rfl⟩

/-- One `AtLeastOne` step neither unsets the composite nor removes a
sub-account keyed under a name different from the realm's. -/
theorem alsStep_comp_mem (s : AlsState) (r : StratRealm) (name : String) (a : Nat)
    (hmem : (name, a) ∈ s.composite_account.getD [])
    (hsome : s.composite_account.isSome = true) (hne : name ≠ r.name) :
    (name, a) ∈ (alsStep s r).composite_account.getD []
    ∧ (alsStep s r).composite_account.isSome = true := by
  rcases alsStep_comp_cases s r with hsame | ⟨b, hset⟩
  · rw [hsame]; exact ⟨hmem, hsome⟩
  · rw [hset]
    exact ⟨mem_pyDictSet_of_ne hmem hne, rfl⟩

/-- Composite keys produced by the `AtLeastOne` loop come from the
initial composite or from the names of the realms iterated. -/
theorem alsLoop_comp_keys (realms : List StratRealm) :
    ∀ (s : AlsState) (x : String),
      x ∈ ((alsLoop s realms).composite_account.getD []).map Prod.fst →
      x ∈ (s.composite_account.getD []).map Prod.fst ∨ x ∈ realms.map StratRealm.name := by
  induction realms with
  | nil => intro s x hx; exact Or.inl hx
  | cons r rs ih =>
    intro s x hx
    have hx2 := ih (alsStep s r) x (by simpa [alsLoop] using hx)
    rcases hx2 with hstep | hrs
    · rcases alsStep_comp_cases s r with hsame | ⟨b, hset⟩
      · rw [hsame] at hstep
        exact Or.inl hstep
      · rw [hset] at hstep
        rcases mem_keys_pyDictSet hstep with heq | hold
        · exact Or.inr (by rw [heq]; exact List.mem_cons_self _ _)
        · exact Or.inl hold
    · exact Or.inr (List.mem_cons_of_mem _ hrs)

/-- A sub-account keyed under a name not named by any remaining realm
survives the rest of the `AtLeastOne` loop, and the composite stays
materialized. -/
theorem alsLoop_comp_mem (realms : List StratRealm) :
    ∀ (s : AlsState) (name : String) (a : Nat),
      (name, a) ∈ s.composite_account.getD [] →
      s.composite_account.isSome = true →
      name ∉ realms.map StratRealm.name →
      (name, a) ∈ ((alsLoop s realms).composite_account.getD [])
      ∧ (alsLoop s realms).composite_account.isSome = true := by
  induction realms with
  | nil => intro s name a hmem hsome _; exact ⟨hmem, hsome⟩
  | cons r rs ih =>
    intro s name a hmem hsome hnotin
    have hne : name ≠ r.name := fun h =>
      hnotin (by rw [h]; exact List.mem_cons_self _ _)
    have hnotin' : name ∉ rs.map StratRealm.name :=
      fun h => hnotin (List.mem_cons_of_mem _ h)
    have hstep := alsStep_comp_mem s r name a hmem hsome hne
    have := ih (alsStep s r) name a hstep.1 hstep.2 hnotin'
    simpa [alsLoop] using this

/-- The `AtLeastOne` loop keeps the invariant that a non-null loop
account implies a non-null `first_account`. -/
theorem alsLoop_first_invariant (realms : List StratRealm) :
    ∀ s : AlsState, (s.account.isSome = true → s.first_account.isSome = true) →
      ((alsLoop s realms).account.isSome = true →
        (alsLoop s realms).first_account.isSome = true) := by
  induction realms with
  | nil => intro s h; exact h
  | cons r rs ih =>
    intro s h
    have hstep : (alsStep s r).account.isSome = true →
        (alsStep s r).first_account.isSome = true := by
      obtain ⟨sa, se, sf, sc⟩ := s
      obtain ⟨rn, rsup, rrep⟩ := r
      cases rsup with
      | false => exact h
      | true =>
        cases rrep with
        | exc e =>
          cases sa with
          | none => intro hcontra; simp [alsStep] at hcontra
          | some a =>
            cases sf with
            | none => intro _; rfl
            | some f => intro _; rfl
        | acct a0 =>
          cases a0 with
          | none => intro hcontra; simp [alsStep] at hcontra
          | some a =>
            cases sf with
            | none => intro _; rfl
            | some f => intro _; rfl
    have := ih (alsStep s r) hstep
    simpa [alsLoop] using this

/-- An `AtLeastOne` step at a raising supported realm, reached with a
stale non-null loop account and a first account already set, appends
the stale account to the composite under the raising realm's name. -/
theorem alsStep_bad_realm (se : List (String × RealmExc))
    (sc : Option (List (String × Nat))) (f a : Nat) (name : String) (e : RealmExc) :
    alsStep ⟨some a, se, some f, sc⟩ ⟨name, true, .exc e⟩ =
      ⟨some a, pyDictSet se name e, some f,
        some (append_realm_account (sc.getD []) name a)⟩ := rfl

/-- Claim C9 amended (no supported realm may intervene between the
success and the raise): with distinct realm names, if processing the
prefix leaves the loop-local `account` holding a non-null value and
the next realm is a supported realm that raises, that stale account is
appended to the returned composite under the raising realm's name. -/
theorem atLeastOne_stale_account_append (pre post : List StratRealm) (name : String)
    (e : RealmExc) (a : Nat)
    (hnd : ((pre ++ ⟨name, true, .exc e⟩ :: post).map StratRealm.name).Nodup)
    (hacct : (alsLoop alsInit pre).account = some a) :
    ∃ subs, atLeastOneExecute (pre ++ ⟨name, true, .exc e⟩ :: post) =
      .ok (some (.composite subs)) ∧ (name, a) ∈ subs := by
  have hnd2 : (pre.map StratRealm.name ++ name :: post.map StratRealm.name).Nodup := by
    simpa using hnd
  have hnotpre : name ∉ pre.map StratRealm.name := fun h =>
    (List.disjoint_of_nodup_append hnd2) h (List.mem_cons_self _ _)
  have hnotpost : name ∉ post.map StratRealm.name := by
    have := (List.nodup_append.mp hnd2).2.1
    exact (List.nodup_cons.mp this).1
  have hfirst : (alsLoop alsInit pre).first_account.isSome = true := by
    refine alsLoop_first_invariant pre alsInit (by intro h; simp [alsInit] at h) ?_
    rw [hacct]; rfl
  have hfresh : name ∉ ((alsLoop alsInit pre).composite_account.getD []).map Prod.fst := by
    intro hmem
    rcases alsLoop_comp_keys pre alsInit name hmem with hinit | hpre
    · simp [alsInit] at hinit
    · exact hnotpre hpre
  obtain ⟨f, hf⟩ := Option.isSome_iff_exists.mp hfirst
  rcases hs1 : alsLoop alsInit pre with ⟨sa1, se1, sf1, sc1⟩
  rw [hs1] at hacct hf hfresh
  have hsa1 : sa1 = some a := hacct
  have hsf1 : sf1 = some f := hf
  subst hsa1; subst hsf1
  have hstep := alsStep_bad_realm se1 sc1 f a name e
  have hmem2 : (name, a) ∈ append_realm_account (sc1.getD []) name a := by
    rw [append_realm_account_fresh (sc1.getD []) name a hfresh]
    exact List.mem_append_right _ (List.mem_cons_self _ _)
  have hafter := alsLoop_comp_mem post
    ⟨some a, pyDictSet se1 name e, some f, some (append_realm_account (sc1.getD []) name a)⟩
    name a (by simpa using hmem2) rfl hnotpost
  have hloop : alsLoop alsInit (pre ++ ⟨name, true, .exc e⟩ :: post) =
      alsLoop (alsStep (alsLoop alsInit pre) ⟨name, true, .exc e⟩) post := by
    rw [alsLoop_append]
    rfl
  rw [hs1, hstep] at hloop
  obtain ⟨c, hc⟩ := Option.isSome_iff_exists.mp hafter.2
  refine ⟨c, ?_, ?_⟩
  · simp only [atLeastOneExecute]
    rw [hloop, hc]
  · have := hafter.1
    rw [hc] at this
    simpa using this

/-- Witness for `atLeastOne_stale_account_append`: realm r1 succeeds
with account 7, realm r2 raises, and the returned composite credits r2
with account 7. -/
theorem atLeastOne_stale_account_append_witness :
    (([⟨"r1", true, .acct (some 7)⟩, ⟨"r2", true, .exc ⟨false, 0⟩⟩] :
        List StratRealm).map StratRealm.name).Nodup
    ∧ (alsLoop alsInit [⟨"r1", true, .acct (some 7)⟩]).account = some 7
    ∧ ∃ subs, atLeastOneExecute
        ([⟨"r1", true, .acct (some 7)⟩] ++ ⟨"r2", true, .exc ⟨false, 0⟩⟩ :: []) =
        .ok (some (.composite subs)) ∧ ("r2", 7) ∈ subs :=
  ⟨by decide, rfl,
    atLeastOne_stale_account_append [⟨"r1", true, .acct (some 7)⟩] [] "r2" ⟨false, 0⟩ 7
      (by decide) rfl⟩

end Yosai
